import Mathlib

/-!
Verification of the trade-simulation core of Binance-Scout (`src/backtest.py`),
shallowly embedded in Lean.  Prices, ATR values and P&L amounts are modelled as
rationals; the per-bar `signal` column as an integer; the `NaN` statistics that
`backtest` returns for an empty trade list as `Option.none`.
-/

namespace BinanceScout

/-- One row of the input DataFrame, with the columns that `backtest` reads. -/
structure Bar where
  open_ : ℚ
  high : ℚ
  low : ℚ
  close : ℚ
  atr_14 : ℚ
  signal : ℤ
deriving DecidableEq, Repr, Inhabited

/-- Which exit branch closed a trade inside the scan loop. -/
inductive ExitKind where
  | stop
  | target
deriving DecidableEq, Repr

/-- The long-side scan loop of `backtest` (backtest.py lines 39-53): walk the
bars after entry, keep the running `max_high`, derive the trailing stop
`trail_sl = max(fixed_sl, max_high - trail_atr*atr)`, and exit on the first
bar whose `low` reaches `trail_sl` (stop) or whose `high` reaches `tp`
(target); `none` when neither fires before the bars run out. -/
def scanLong (fixed_sl tp trail_atr atr : ℚ) : ℚ → List Bar → Option (ExitKind × ℚ)
  | _, [] => none
  | max_high, b :: rest =>
    let mh := max max_high b.high
    let trail_sl := max fixed_sl (mh - trail_atr * atr)
    if b.low ≤ trail_sl then some (ExitKind.stop, trail_sl)
    else if b.high ≥ tp then some (ExitKind.target, tp)
    else scanLong fixed_sl tp trail_atr atr mh rest

/-- The short-side scan loop of `backtest` (backtest.py lines 54-62):
`trail_sl = min(fixed_sl, min_low + trail_atr*atr)`, stop fires when `high`
reaches `trail_sl`, target when `low` reaches `tp`. -/
def scanShort (fixed_sl tp trail_atr atr : ℚ) : ℚ → List Bar → Option (ExitKind × ℚ)
  | _, [] => none
  | min_low, b :: rest =>
    let ml := min min_low b.low
    let trail_sl := min fixed_sl (ml + trail_atr * atr)
    if b.high ≥ trail_sl then some (ExitKind.stop, trail_sl)
    else if b.low ≤ tp then some (ExitKind.target, tp)
    else scanShort fixed_sl tp trail_atr atr ml rest

/-- The signal read at row `i` (`df.loc[i, 'signal']`). -/
def sigAt (df : List Bar) (i : ℕ) : ℤ := (df.getD i default).signal

/-- `entry_price = df.loc[i+1, 'open']`. -/
def entryPrice (df : List Bar) (i : ℕ) : ℚ := (df.getD (i + 1) default).open_

/-- `atr = df.loc[i+1, 'atr_14']`. -/
def atrAtEntry (df : List Bar) (i : ℕ) : ℚ := (df.getD (i + 1) default).atr_14

/-- `fixed_sl = entry_price - sig * sl_atr * atr` (backtest.py line 30). -/
def fixed_sl (df : List Bar) (sl_atr : ℚ) (i : ℕ) : ℚ :=
  entryPrice df i - (sigAt df i : ℚ) * sl_atr * atrAtEntry df i

/-- `tp = entry_price + sig * tp_atr * atr` (backtest.py line 31). -/
def takeProfit (df : List Bar) (tp_atr : ℚ) (i : ℕ) : ℚ :=
  entryPrice df i + (sigAt df i : ℚ) * tp_atr * atrAtEntry df i

/-- The scan loop for the signal at row `i`: the long branch when `sig == 1`,
otherwise the short branch, over the bars `i+1 .. n-1` (`df.drop (i+1)`),
with both running extremes starting at `entry_price`. -/
def scanResult (df : List Bar) (sl_atr tp_atr trail_atr : ℚ) (i : ℕ) :
    Option (ExitKind × ℚ) :=
  if sigAt df i = 1 then
    scanLong (fixed_sl df sl_atr i) (takeProfit df tp_atr i) trail_atr
      (atrAtEntry df i) (entryPrice df i) (df.drop (i + 1))
  else
    scanShort (fixed_sl df sl_atr i) (takeProfit df tp_atr i) trail_atr
      (atrAtEntry df i) (entryPrice df i) (df.drop (i + 1))

/-- `exit_price`: the price at which the scan loop exited, or the last bar's
close when neither stop nor target fired (backtest.py lines 64-66). -/
def exit_price (df : List Bar) (sl_atr tp_atr trail_atr : ℚ) (i : ℕ) : ℚ :=
  match scanResult df sl_atr tp_atr trail_atr i with
  | some (_, p) => p
  | none => (df.getD (df.length - 1) default).close

/-- `pnl = (exit_price - entry_price) * sig` (backtest.py line 69). -/
def pnlOfSignal (df : List Bar) (sl_atr tp_atr trail_atr : ℚ) (i : ℕ) : ℚ :=
  (exit_price df sl_atr tp_atr trail_atr i - entryPrice df i) * (sigAt df i : ℚ)

/-- The `pnls` list accumulated by the outer loop over `i in range(n-1)`,
skipping rows with `signal == 0` (backtest.py lines 19-70). -/
def pnls (df : List Bar) (sl_atr tp_atr trail_atr : ℚ) : List ℚ :=
  (List.range (df.length - 1)).filterMap fun i =>
    if sigAt df i = 0 then none else some (pnlOfSignal df sl_atr tp_atr trail_atr i)

/-- Cumulative sums with the running total carried explicitly. -/
def cumsumFrom (acc : ℚ) : List ℚ → List ℚ
  | [] => []
  | x :: xs => (acc + x) :: cumsumFrom (acc + x) xs

/-- `np.cumsum` over the P&L list. -/
def cumsum (l : List ℚ) : List ℚ := cumsumFrom 0 l

/-- Maximum of a list, `0` on the empty list (only ever applied to non-empty
lists, mirroring `arr.max()` on a non-empty numpy array). -/
def listMax : List ℚ → ℚ
  | [] => 0
  | x :: xs => xs.foldl max x

/-- Minimum of a list, `0` on the empty list. -/
def listMin : List ℚ → ℚ
  | [] => 0
  | x :: xs => xs.foldl min x

/-- `dd = (cum.max() - cum).max()` (backtest.py lines 81-82): the elementwise
difference between the global maximum of the cumulative sums and each
cumulative sum, then its maximum. -/
def max_drawdown (l : List ℚ) : ℚ :=
  listMax ((cumsum l).map fun c => listMax (cumsum l) - c)

/-- The full `backtest` function: the tuple
`(total, win_rate, avg_pnl, max_drawdown)`, with the three statistics `none`
(numpy `NaN`) when no trade was taken (backtest.py lines 7-83). -/
def backtest (df : List Bar) (sl_atr tp_atr trail_atr : ℚ) :
    ℕ × Option ℚ × Option ℚ × Option ℚ :=
  let ps := pnls df sl_atr tp_atr trail_atr
  if ps = [] then (0, none, none, none)
  else
    (ps.length,
     some (((ps.filter fun p => 0 < p).length : ℚ) / (ps.length : ℚ)),
     some (ps.sum / (ps.length : ℚ)),
     some (max_drawdown ps))

/-- The sequence of `trail_sl` values the long scan computes on successive
bars (the `current_stop` of the spec), from the running `max_high` carried in
the last argument before the bar list. -/
def stopsLong (fixed trail_atr atr : ℚ) : ℚ → List Bar → List ℚ
  | _, [] => []
  | max_high, b :: rest =>
    let mh := max max_high b.high
    max fixed (mh - trail_atr * atr) :: stopsLong fixed trail_atr atr mh rest

/-- The sequence of `trail_sl` values the short scan computes on successive
bars. -/
def stopsShort (fixed trail_atr atr : ℚ) : ℚ → List Bar → List ℚ
  | _, [] => []
  | min_low, b :: rest =>
    let ml := min min_low b.low
    min fixed (ml + trail_atr * atr) :: stopsShort fixed trail_atr atr ml rest

/-- Following the spec's words for the C2 comparison: a long scan in which
`current_stop` equals `fixed_stop` on every bar (only the fixed stop and the
take-profit are active). -/
def scanLongFixedOnly (fixed tp : ℚ) : List Bar → Option (ExitKind × ℚ)
  | [] => none
  | b :: rest =>
    if b.low ≤ fixed then some (ExitKind.stop, fixed)
    else if b.high ≥ tp then some (ExitKind.target, tp)
    else scanLongFixedOnly fixed tp rest

/-- Running maxima carried from an already-seen maximum `m`. -/
def runningMaxAux (m : ℚ) : List ℚ → List ℚ
  | [] => []
  | x :: xs => max m x :: runningMaxAux (max m x) xs

/-- Following the spec's words: `running_max(cum[0..k])` for each `k`. -/
def runningMax : List ℚ → List ℚ
  | [] => []
  | x :: xs => x :: runningMaxAux x xs

/-- Following the spec's words for `max_drawdown`:
`max over k of (running_max(cum[0..k]) - cum[k])`. -/
def spec_max_drawdown (l : List ℚ) : ℚ :=
  listMax (List.zipWith (fun r c => r - c) (runningMax (cumsum l)) (cumsum l))

/-! ### Helper lemmas shared between claims -/

lemma foldl_max_map_sub (M : ℚ) :
    ∀ (xs : List ℚ) (a : ℚ),
      ((xs.map fun c => M - c).foldl max (M - a)) = M - xs.foldl min a := by
  intro xs
  induction xs with
  | nil => intro a; rfl
  | cons x xs ih =>
      intro a
      simp only [List.map_cons, List.foldl_cons]
      rw [max_sub_sub_left]
      exact ih (min a x)

lemma listMax_map_sub (M : ℚ) (c : List ℚ) (hc : c ≠ []) :
    listMax (c.map fun x => M - x) = M - listMin c := by
  cases c with
  | nil => exact absurd rfl hc
  | cons x xs =>
      simp only [List.map_cons, listMax, listMin]
      exact foldl_max_map_sub M xs x

lemma cumsumFrom_ne_nil (acc : ℚ) (l : List ℚ) (h : l ≠ []) : cumsumFrom acc l ≠ [] := by
  cases l with
  | nil => exact absurd rfl h
  | cons x xs => simp [cumsumFrom]

lemma max_drawdown_eq_max_sub_min (l : List ℚ) (h : l ≠ []) :
    max_drawdown l = listMax (cumsum l) - listMin (cumsum l) :=
  listMax_map_sub (listMax (cumsum l)) (cumsum l) (cumsumFrom_ne_nil 0 l h)

/-! ### Claims -/

/-- C1 (counterexample): `backtest` does not fail with `InvalidInput`; it
returns an ordinary result both on a one-bar sequence and on a sequence
containing a negative `atr_14` value (which even produces a trade). -/
theorem c1_counterexample :
    backtest [({ open_ := 1, high := 2, low := 0, close := 1, atr_14 := 1, signal := 1 } : Bar)]
      (3/2) (1/2) (1/2) = (0, none, none, none)
    ∧ (backtest
        [({ open_ := 1, high := 1, low := 1, close := 1, atr_14 := 1, signal := 1 } : Bar),
         ({ open_ := 100, high := 101, low := 99, close := 100, atr_14 := -10, signal := 0 } : Bar)]
        (3/2) (1/2) (1/2)).1 = 1 := by
  constructor
  · rfl
  · norm_num [backtest, pnls, pnlOfSignal, exit_price, scanResult, scanLong, scanShort,
      fixed_sl, takeProfit, entryPrice, atrAtEntry, sigAt, max_drawdown, cumsum, cumsumFrom,
      listMax, max_def, min_def, List.range_succ, List.filterMap_cons]

/-- C1 (amended): `backtest` performs no input validation and never raises an
error: for every Bar Sequence with fewer than 2 bars it returns the no-trade
result `(0, NaN, NaN, NaN)`, and a sequence containing a negative volatility
value is simulated as-is (here producing one trade) rather than rejected. -/
theorem c1_no_validation :
    (∀ (df : List Bar) (sl_atr tp_atr trail_atr : ℚ), df.length < 2 →
      backtest df sl_atr tp_atr trail_atr = (0, none, none, none))
    ∧ (backtest
        [({ open_ := 2, high := 2, low := 2, close := 2, atr_14 := 1, signal := -1 } : Bar),
         ({ open_ := 50, high := 51, low := 49, close := 50, atr_14 := -3, signal := 0 } : Bar)]
        1 1 1).1 = 1 := by
  constructor
  · intro df sl_atr tp_atr trail_atr h
    match df with
    | [] => rfl
    | [b] => rfl
    | a :: b :: rest => exact absurd h (by simp only [List.length_cons]; omega)
  · norm_num [backtest, pnls, pnlOfSignal, exit_price, scanResult, scanLong, scanShort,
      fixed_sl, takeProfit, entryPrice, atrAtEntry, sigAt, max_drawdown, cumsum, cumsumFrom,
      listMax, max_def, min_def, List.range_succ, List.filterMap_cons]

/-- Witness for C1: the amended theorem applied to a concrete one-bar input. -/
theorem c1_no_validation_witness :
    backtest [({ open_ := 7, high := 8, low := 6, close := 7, atr_14 := 1, signal := 1 } : Bar)]
      2 2 2 = (0, none, none, none) :=
  c1_no_validation.1 _ 2 2 2 (by decide)

/-- C3 (counterexample): on the P&L list `[-5, 10]` the code's `max_drawdown`
is `10` (global max minus global min of the cumulative sums) while the spec's
running-max formula gives `0`; the two disagree. -/
theorem c3_counterexample :
    max_drawdown [(-5 : ℚ), 10] = 10
    ∧ spec_max_drawdown [(-5 : ℚ), 10] = 0
    ∧ max_drawdown [(-5 : ℚ), 10] ≠ spec_max_drawdown [(-5 : ℚ), 10] := by
  refine ⟨?_, ?_, ?_⟩ <;>
    norm_num [max_drawdown, spec_max_drawdown, cumsum, cumsumFrom, listMax,
      runningMax, runningMaxAux, max_def]

/-- C3 (amended): for every non-empty P&L list the aggregator computes
`max_drawdown = (global maximum of the cumulative sums) - (global minimum of
the cumulative sums)`, which is not the running-max peak-to-trough formula in
general; on `[+10, -4, +6, -12, +3]` the two coincide and the result is 12. -/
theorem c3_drawdown :
    (∀ l : List ℚ, l ≠ [] →
      max_drawdown l = listMax (cumsum l) - listMin (cumsum l))
    ∧ max_drawdown [(10 : ℚ), -4, 6, -12, 3] = 12 := by
  constructor
  · exact max_drawdown_eq_max_sub_min
  · norm_num [max_drawdown, cumsum, cumsumFrom, listMax, max_def]

/-- Witness for C3: the amended theorem applied to a concrete non-empty list. -/
theorem c3_drawdown_witness :
    max_drawdown [(1 : ℚ), 2] = listMax (cumsum [(1 : ℚ), 2]) - listMin (cumsum [(1 : ℚ), 2]) :=
  c3_drawdown.1 [1, 2] (by decide)

/-- C9 (counterexample): the computed `max_drawdown` is not invariant under
reversing the trade list: on `[5, -3]` it is 3, on the reversed list 5. -/
theorem c9_counterexample :
    max_drawdown (([(5 : ℚ), -3]).reverse) ≠ max_drawdown [(5 : ℚ), -3] := by
  norm_num [max_drawdown, cumsum, cumsumFrom, listMax, max_def]

/-- C9 (amended): for every non-empty trade list the computed `max_drawdown`
equals the global maximum of the cumulative P&L sequence minus its global
minimum, regardless of which of the two comes first in trade order; but the
value is not invariant under reversing the trade list, because the cumulative
sequence itself depends on the order (`[5, -3]` gives 3, `[-3, 5]` gives 5). -/
theorem c9_drawdown_max_sub_min :
    (∀ l : List ℚ, l ≠ [] →
      max_drawdown l = listMax (cumsum l) - listMin (cumsum l))
    ∧ max_drawdown [(5 : ℚ), -3] = 3 ∧ max_drawdown [(-3 : ℚ), 5] = 5 := by
  refine ⟨max_drawdown_eq_max_sub_min, ?_, ?_⟩ <;>
    norm_num [max_drawdown, cumsum, cumsumFrom, listMax, max_def]

/-- Witness for C9: the amended theorem applied to a concrete non-empty list. -/
theorem c9_drawdown_witness :
    max_drawdown [(4 : ℚ)] = listMax (cumsum [(4 : ℚ)]) - listMin (cumsum [(4 : ℚ)]) :=
  c9_drawdown_max_sub_min.1 [4] (by decide)

/-- C4 (counterexample): on a two-bar sequence whose only nonzero signal is at
index 0, the simulator does enter a trade at bar 1 (the following bar exists),
so `backtest` reports one trade, not zero. -/
theorem c4_counterexample :
    backtest
      [({ open_ := 1, high := 1, low := 1, close := 1, atr_14 := 1, signal := 1 } : Bar),
       ({ open_ := 100, high := 100, low := 100, close := 100, atr_14 := 0, signal := 0 } : Bar)]
      (3/2) (1/2) (1/2) = (1, some 0, some 0, some 0) := by
  norm_num [backtest, pnls, pnlOfSignal, exit_price, scanResult, scanLong, scanShort,
    fixed_sl, takeProfit, entryPrice, atrAtEntry, sigAt, max_drawdown, cumsum, cumsumFrom,
    listMax, max_def, min_def, List.range_succ, List.filterMap_cons]

/-- C4 (amended): for every two-bar Bar Sequence whose only nonzero signal is
at index 1 (the final bar), the simulator produces no trade — the outer loop
stops before the last index — and `backtest` returns `total_trades = 0` with
`win_rate` (and the other statistics) undefined. -/
theorem c4_last_bar_signal :
    ∀ (b0 b1 : Bar) (sl_atr tp_atr trail_atr : ℚ), b0.signal = 0 →
      backtest [b0, b1] sl_atr tp_atr trail_atr = (0, none, none, none) := by
  intro b0 b1 sl_atr tp_atr trail_atr h
  have hp : pnls [b0, b1] sl_atr tp_atr trail_atr = [] := by
    simp [pnls, sigAt, h, List.range_succ]
  simp [backtest, hp]

/-- Witness for C4: the amended theorem applied to concrete bars with the
only nonzero signal on the final bar. -/
theorem c4_last_bar_signal_witness :
    backtest
      [({ open_ := 1, high := 2, low := 0, close := 1, atr_14 := 1, signal := 0 } : Bar),
       ({ open_ := 3, high := 4, low := 2, close := 3, atr_14 := 1, signal := 1 } : Bar)]
      1 1 1 = (0, none, none, none) :=
  c4_last_bar_signal _ _ 1 1 1 (by decide)

/-- C2 (counterexample): with `trail_atr = 0` the trailing stop does not
degenerate to the fixed stop.  On a bar with high 110 and low 95 after an
entry at 100 with `fixed_sl = 90`, `tp = 200`, the scan exits immediately at
the running high 110 (not at the fixed stop 90), while a scan using only the
fixed stop and take-profit does not exit on that bar at all; the full
simulation's exit price is 110. -/
theorem c2_counterexample :
    scanLong 90 200 0 10 100
      [({ open_ := 100, high := 110, low := 95, close := 105, atr_14 := 10, signal := 0 } : Bar)]
      = some (ExitKind.stop, 110)
    ∧ scanLongFixedOnly 90 200
      [({ open_ := 100, high := 110, low := 95, close := 105, atr_14 := 10, signal := 0 } : Bar)]
      = none
    ∧ exit_price
        [({ open_ := 1, high := 1, low := 1, close := 1, atr_14 := 1, signal := 1 } : Bar),
         ({ open_ := 100, high := 110, low := 95, close := 105, atr_14 := 10, signal := 0 } : Bar)]
        1 10 0 0 = 110
    ∧ (110 : ℚ) ≠ 90 := by
  refine ⟨?_, ?_, ?_, ?_⟩ <;>
    norm_num [scanLong, scanLongFixedOnly, exit_price, scanResult, scanShort,
      fixed_sl, takeProfit, entryPrice, atrAtEntry, sigAt, max_def, min_def]

/-- C2 (amended): when `trail_atr = 0` the trailing stop equals
`max(fixed_sl, max_high)` for a Long trade and `min(fixed_sl, min_low)` for a
Short trade — the running favorable extreme clipped by the fixed stop, not
the fixed stop itself — and since that level always lies inside the current
bar's range, the stop fires on the very first bar scanned and the trade exits
there at that level. -/
theorem c2_zero_trail :
    (∀ (fixed tp a mh : ℚ) (b : Bar) (rest : List Bar), b.low ≤ b.high →
      scanLong fixed tp 0 a mh (b :: rest)
        = some (ExitKind.stop, max fixed (max mh b.high)))
    ∧ (∀ (fixed tp a ml : ℚ) (b : Bar) (rest : List Bar), b.low ≤ b.high →
      scanShort fixed tp 0 a ml (b :: rest)
        = some (ExitKind.stop, min fixed (min ml b.low))) := by
  constructor
  · intro fixed tp a mh b rest h
    have hfires : b.low ≤ max fixed (max mh b.high) :=
      h.trans ((le_max_right mh b.high).trans (le_max_right fixed _))
    simp only [scanLong, zero_mul, sub_zero]
    rw [if_pos hfires]
  · intro fixed tp a ml b rest h
    have hfires : min fixed (min ml b.low) ≤ b.high :=
      ((min_le_right fixed _).trans (min_le_right ml b.low)).trans h
    simp only [scanShort, zero_mul, add_zero, ge_iff_le]
    rw [if_pos hfires]

/-- Witness for C2: the amended theorem applied to a concrete bar. -/
theorem c2_zero_trail_witness :
    scanLong 90 1000 0 7 100
      [({ open_ := 100, high := 110, low := 95, close := 105, atr_14 := 7, signal := 0 } : Bar)]
      = some (ExitKind.stop, max 90 (max 100 110)) :=
  c2_zero_trail.1 90 1000 7 100 _ [] (by norm_num)

/-- C5 (confirmed): within a single bar the stop condition is checked
strictly before the target condition, for both directions: on a bar where the
stop condition (`low ≤ trail_sl` for Long, `high ≥ trail_sl` for Short) and
the target condition both hold, the scan exits at the stop price, not at the
take-profit price. -/
theorem c5_stop_before_target :
    (∀ (fixed tp ta a mh : ℚ) (b : Bar) (rest : List Bar),
      b.low ≤ max fixed (max mh b.high - ta * a) → b.high ≥ tp →
      scanLong fixed tp ta a mh (b :: rest)
        = some (ExitKind.stop, max fixed (max mh b.high - ta * a)))
    ∧ (∀ (fixed tp ta a ml : ℚ) (b : Bar) (rest : List Bar),
      b.high ≥ min fixed (min ml b.low + ta * a) → b.low ≤ tp →
      scanShort fixed tp ta a ml (b :: rest)
        = some (ExitKind.stop, min fixed (min ml b.low + ta * a))) := by
  constructor
  · intro fixed tp ta a mh b rest h1 h2
    simp only [scanLong]
    rw [if_pos h1]
  · intro fixed tp ta a ml b rest h1 h2
    simp only [scanShort, ge_iff_le]
    rw [if_pos h1]

/-- Witness for C5: a concrete bar (high 120, low 80) on which both the stop
condition and the target condition hold resolves to the stop exit. -/
theorem c5_stop_before_target_witness :
    (80 : ℚ) ≤ max 90 (max 100 120 - 0 * 0) ∧ (120 : ℚ) ≥ 100
    ∧ scanLong 90 100 0 0 100 [(⟨100, 120, 80, 100, 0, 0⟩ : Bar)]
        = some (ExitKind.stop,
            max 90 (max 100 (⟨100, 120, 80, 100, 0, 0⟩ : Bar).high - 0 * 0)) :=
  ⟨by norm_num [max_def], by norm_num,
    c5_stop_before_target.1 90 100 0 0 100 ⟨100, 120, 80, 100, 0, 0⟩ []
      (by norm_num [max_def]) (by norm_num)⟩

/-- C6 (confirmed): for a non-negative volatility at entry, the sequence of
`trail_sl` (`current_stop`) values the scan computes over the bars of a
trade's lifetime is non-decreasing for a Long trade and non-increasing for a
Short trade: the stop only ever tightens. -/
theorem c6_stop_monotonic :
    (∀ (fixed ta a mh : ℚ) (bars : List Bar), 0 ≤ a →
      List.Chain' (· ≤ ·) (stopsLong fixed ta a mh bars))
    ∧ (∀ (fixed ta a ml : ℚ) (bars : List Bar), 0 ≤ a →
      List.Chain' (· ≥ ·) (stopsShort fixed ta a ml bars)) := by
  constructor
  · intro fixed ta a mh bars _
    induction bars generalizing mh with
    | nil => simp [stopsLong]
    | cons b rest ih =>
        simp only [stopsLong]
        rw [List.chain'_cons']
        refine ⟨?_, ih (max mh b.high)⟩
        intro y hy
        cases rest with
        | nil => simp [stopsLong] at hy
        | cons b2 rest2 =>
            simp only [stopsLong, List.head?, Option.mem_def, Option.some.injEq] at hy
            subst hy
            exact max_le_max le_rfl (sub_le_sub_right (le_max_left _ _) _)
  · intro fixed ta a ml bars _
    induction bars generalizing ml with
    | nil => simp [stopsShort]
    | cons b rest ih =>
        simp only [stopsShort]
        rw [List.chain'_cons']
        refine ⟨?_, ih (min ml b.low)⟩
        intro y hy
        cases rest with
        | nil => simp [stopsShort] at hy
        | cons b2 rest2 =>
            simp only [stopsShort, List.head?, Option.mem_def, Option.some.injEq] at hy
            subst hy
            exact min_le_min le_rfl (add_le_add_right (min_le_left _ _) _)

/-- Witness for C6: the monotonicity theorem applied to a concrete two-bar
lifetime. -/
theorem c6_stop_monotonic_witness :
    List.Chain' (· ≤ ·) (stopsLong 90 1 2 100
      [({ open_ := 100, high := 104, low := 98, close := 100, atr_14 := 2, signal := 0 } : Bar),
       ({ open_ := 100, high := 109, low := 99, close := 100, atr_14 := 2, signal := 0 } : Bar)]) :=
  c6_stop_monotonic.1 90 1 2 100 _ (by norm_num)

/-- C7 (confirmed): when the scan runs off the end of the Bar Sequence with
neither exit condition having fired (`scanResult = none`), the trade exits at
the final bar's close; moreover, if on every bar of the scan the high stays
strictly below the take-profit and the low stays strictly above that bar's
`trail_sl` value, the long scan indeed fires no exit condition. -/
theorem c7_fallback_close :
    (∀ (df : List Bar) (sl_atr tp_atr trail_atr : ℚ) (i : ℕ),
      scanResult df sl_atr tp_atr trail_atr i = none →
      exit_price df sl_atr tp_atr trail_atr i = (df.getD (df.length - 1) default).close)
    ∧ (∀ (fixed tp ta a mh : ℚ) (bars : List Bar),
      (∀ k, k < bars.length → (bars.getD k default).high < tp ∧
        (stopsLong fixed ta a mh bars).getD k 0 < (bars.getD k default).low) →
      scanLong fixed tp ta a mh bars = none) := by
  constructor
  · intro df sl_atr tp_atr trail_atr i h
    simp [exit_price, h]
  · intro fixed tp ta a mh bars
    induction bars generalizing mh with
    | nil => intro _; rfl
    | cons b rest ih =>
        intro h
        have h0 := h 0 (by simp)
        simp only [stopsLong, List.getD_cons_zero] at h0
        simp only [scanLong, ge_iff_le]
        rw [if_neg (not_le.mpr h0.2), if_neg (not_le.mpr h0.1)]
        apply ih
        intro k hk
        have hs := h (k + 1) (by simp only [List.length_cons]; omega)
        simpa only [stopsLong, List.getD_cons_succ] using hs

/-- Witness for C7: a one-bar sequence whose scan finds no bar to exit on
falls back to the final close. -/
theorem c7_fallback_close_witness :
    scanResult [(⟨1, 2, 0, 7, 1, 1⟩ : Bar)] 1 1 1 0 = none
    ∧ exit_price [(⟨1, 2, 0, 7, 1, 1⟩ : Bar)] 1 1 1 0
        = (([(⟨1, 2, 0, 7, 1, 1⟩ : Bar)].getD ([(⟨1, 2, 0, 7, 1, 1⟩ : Bar)].length - 1)
            default).close) :=
  ⟨rfl, c7_fallback_close.1 [⟨1, 2, 0, 7, 1, 1⟩] 1 1 1 0 rfl⟩

/-- C8 (confirmed): a signal whose entry bar has volatility exactly 0 does
not make the simulator fail: the fixed stop and the take-profit both collapse
to the entry price, and the trade's P&L is still computed and collected into
the aggregated list. -/
theorem c8_zero_volatility :
    ∀ (df : List Bar) (sl_atr tp_atr trail_atr : ℚ) (i : ℕ),
      i + 1 < df.length → sigAt df i ≠ 0 → atrAtEntry df i = 0 →
      fixed_sl df sl_atr i = entryPrice df i
      ∧ takeProfit df tp_atr i = entryPrice df i
      ∧ pnlOfSignal df sl_atr tp_atr trail_atr i ∈ pnls df sl_atr tp_atr trail_atr := by
  intro df sl_atr tp_atr trail_atr i hi hs ha
  refine ⟨?_, ?_, ?_⟩
  · simp [fixed_sl, ha]
  · simp [takeProfit, ha]
  · exact List.mem_filterMap.mpr ⟨i, List.mem_range.mpr (by omega), by rw [if_neg hs]⟩

/-- Witness for C8: a concrete two-bar sequence whose entry bar carries zero
volatility yields a degenerate trade whose P&L is aggregated. -/
theorem c8_zero_volatility_witness :
    fixed_sl [(⟨1, 1, 1, 1, 1, 1⟩ : Bar), (⟨9, 9, 9, 9, 0, 0⟩ : Bar)] 2 0
      = entryPrice [(⟨1, 1, 1, 1, 1, 1⟩ : Bar), (⟨9, 9, 9, 9, 0, 0⟩ : Bar)] 0
    ∧ takeProfit [(⟨1, 1, 1, 1, 1, 1⟩ : Bar), (⟨9, 9, 9, 9, 0, 0⟩ : Bar)] 3 0
      = entryPrice [(⟨1, 1, 1, 1, 1, 1⟩ : Bar), (⟨9, 9, 9, 9, 0, 0⟩ : Bar)] 0
    ∧ pnlOfSignal [(⟨1, 1, 1, 1, 1, 1⟩ : Bar), (⟨9, 9, 9, 9, 0, 0⟩ : Bar)] 2 3 1 0
      ∈ pnls [(⟨1, 1, 1, 1, 1, 1⟩ : Bar), (⟨9, 9, 9, 9, 0, 0⟩ : Bar)] 2 3 1 :=
  c8_zero_volatility [⟨1, 1, 1, 1, 1, 1⟩, ⟨9, 9, 9, 9, 0, 0⟩] 2 3 1 0
    (by decide) (by decide) (by decide)

/-- C10 (confirmed): a trade that exits through the stop branch never exits
at a price worse than the fixed stop: the long scan's stop exit price is at
least `fixed_sl`, and the short scan's stop exit price is at most
`fixed_sl`. -/
theorem c10_stop_exit_bound :
    (∀ (fixed tp ta a mh : ℚ) (bars : List Bar) (p : ℚ),
      scanLong fixed tp ta a mh bars = some (ExitKind.stop, p) → fixed ≤ p)
    ∧ (∀ (fixed tp ta a ml : ℚ) (bars : List Bar) (p : ℚ),
      scanShort fixed tp ta a ml bars = some (ExitKind.stop, p) → p ≤ fixed) := by
  constructor
  · intro fixed tp ta a mh bars
    induction bars generalizing mh with
    | nil => intro p h; simp [scanLong] at h
    | cons b rest ih =>
        intro p h
        simp only [scanLong, ge_iff_le] at h
        by_cases h1 : b.low ≤ max fixed (max mh b.high - ta * a)
        · rw [if_pos h1] at h
          simp only [Option.some.injEq, Prod.mk.injEq] at h
          rw [← h.2]
          exact le_max_left _ _
        · rw [if_neg h1] at h
          by_cases h2 : tp ≤ b.high
          · rw [if_pos h2] at h
            simp only [Option.some.injEq, Prod.mk.injEq] at h
            exact absurd h.1 (by decide)
          · rw [if_neg h2] at h
            exact ih _ p h
  · intro fixed tp ta a ml bars
    induction bars generalizing ml with
    | nil => intro p h; simp [scanShort] at h
    | cons b rest ih =>
        intro p h
        simp only [scanShort, ge_iff_le] at h
        by_cases h1 : min fixed (min ml b.low + ta * a) ≤ b.high
        · rw [if_pos h1] at h
          simp only [Option.some.injEq, Prod.mk.injEq] at h
          rw [← h.2]
          exact min_le_left _ _
        · rw [if_neg h1] at h
          by_cases h2 : b.low ≤ tp
          · rw [if_pos h2] at h
            simp only [Option.some.injEq, Prod.mk.injEq] at h
            exact absurd h.1 (by decide)
          · rw [if_neg h2] at h
            exact ih _ p h

/-- Witness for C10: a concrete long stop exit at 10 is above the fixed stop
5. -/
theorem c10_stop_exit_bound_witness :
    scanLong 5 100 0 0 0 [(⟨0, 10, 1, 0, 0, 0⟩ : Bar)] = some (ExitKind.stop, 10)
    ∧ (5 : ℚ) ≤ 10 :=
  ⟨by norm_num [scanLong, max_def],
    c10_stop_exit_bound.1 5 100 0 0 0 [⟨0, 10, 1, 0, 0, 0⟩] 10
      (by norm_num [scanLong, max_def])⟩

end BinanceScout
